import Mathlib

/-!
Verification development for the achievement-verification core of the
last-sport Express/Prisma server (src/index.ts).

The handlers are embedded shallowly: the persistent store is a list of
records, a handler is a function from the store and the request data to a
classified response together with the store after the call (unchanged on
every error path, since the handlers return before any write).  JSON body
fields are `Option` values, `none` meaning the key is absent
(`undefined` in JavaScript); where the distinction between an absent key
and an explicit JSON `null` matters (the `reason` field of the verify
handler) the field is `Option (Option String)`.  A Prisma `update` skips
a field whose value is `undefined`, leaving the stored column unchanged;
this skip semantics is modelled explicitly.  Clock values are naturals
(milliseconds); the report handler receives its window cutoffs as
arguments, as the source computes them from the clock on entry.
-/

/-- Truthiness of an optional string in JavaScript: `!x` rejects
`null`/`undefined` and the empty string. -/
def strTruthy : Option String → Bool
  | none => false
  | some s => s ≠ ""

/-- User record (Prisma `User`), restricted to the fields the embedded
handlers read. -/
structure User where
  id : String
  username : String
  role : String
  sport : Option String
  deriving DecidableEq, Repr

/-- Achievement record (Prisma `Achievement`).  `status` is a plain string:
the handlers string-compare it and store the caller-supplied decision
verbatim. -/
structure Achievement where
  id : String
  ownerId : String
  title : String
  date : Nat
  description : Option String
  proof : Option String
  sport : String
  venue : String
  status : String
  decisionReason : Option String
  verifiedById : Option String
  verifiedByName : Option String
  verifiedAt : Option Nat
  createdAt : Nat
  updatedAt : Nat
  deriving DecidableEq, Repr

/-- Coaching schedule record, the fields used by the report handler. -/
structure Schedule where
  id : String
  coachId : String
  date : Nat
  deriving DecidableEq, Repr

/-- Schedule request record, the fields used by the report handler. -/
structure ScheduleRequest where
  id : String
  scheduleId : String
  playerId : String
  status : String
  createdAt : Nat
  deriving DecidableEq, Repr

/-- Tournament registration record, the fields used by the report
handler. -/
structure TournamentRegistration where
  id : String
  playerId : String
  regStatus : String
  deriving DecidableEq, Repr

/-- Classified failure responses of the handlers.  The mapping to the
design-level error taxonomy is: `badRequest` = ValidationError (HTTP 400),
`forbidden` = HTTP 403 (AuthorizationError, or ConflictError for the
delete-approved message), `notFound` = NotFoundError (HTTP 404),
`serverError` = ServerError (HTTP 500). -/
inductive ApiError where
  | badRequest (msg : String)
  | forbidden (msg : String)
  | notFound (msg : String)
  | serverError
  deriving DecidableEq, Repr

/-- Discriminates the HTTP 403 responses (the AuthorizationError and
ConflictError classes) from the other failure classes. -/
def isForbidden : ApiError → Bool
  | ApiError.forbidden _ => true
  | _ => false

instance {ε α : Type} [DecidableEq ε] [DecidableEq α] :
    DecidableEq (Except ε α) := fun x y =>
  match x, y with
  | Except.ok a, Except.ok b =>
    if h : a = b then isTrue (by rw [h])
    else isFalse (fun hc => h (Except.ok.inj hc))
  | Except.error a, Except.error b =>
    if h : a = b then isTrue (by rw [h])
    else isFalse (fun hc => h (Except.error.inj hc))
  | Except.ok _, Except.error _ => isFalse (fun hc => Except.noConfusion hc)
  | Except.error _, Except.ok _ => isFalse (fun hc => Except.noConfusion hc)

/-- Handler for `POST /api/achievements` (src/index.ts lines 293-323).
The guard is the JavaScript falsiness test
`!title || !date || !sport || !venue`, so empty strings are rejected too.
`newId` is the store-assigned id, `now` the clock at the call. -/
def createAchievement (achs : List Achievement) (userId : String)
    (title : Option String) (date : Option Nat)
    (description proof sport venue : Option String)
    (newId : String) (now : Nat) :
    Except ApiError Achievement × List Achievement :=
  if strTruthy title = false ∨ date = none ∨ strTruthy sport = false ∨
      strTruthy venue = false then
    (Except.error (ApiError.badRequest "Missing required fields"), achs)
  else
    let a : Achievement :=
      { id := newId, ownerId := userId
        title := title.getD "", date := date.getD 0
        description := description, proof := proof
        sport := sport.getD "", venue := venue.getD ""
        status := "PENDING", decisionReason := none
        verifiedById := none, verifiedByName := none, verifiedAt := none
        createdAt := now, updatedAt := now }
    (Except.ok a, a :: achs)

/-- Handler for `PUT /api/achievements/:id` (src/index.ts lines 325-360).
The single not-found-or-not-owner check returns one 404 response.  A field
that is `none` (absent key, `undefined`) is skipped by the Prisma update,
keeping the stored value; an absent `date` makes `new Date(date)` an
invalid date, so the Prisma call throws and is caught as a 500.  The
update never touches `status`, `decisionReason` or the `verified` fields. -/
def updateAchievement (achs : List Achievement) (userId id : String)
    (title sport : Option String) (date : Option Nat)
    (venue description : Option String) (now : Nat) :
    Except ApiError Achievement × List Achievement :=
  match achs.find? (fun a => a.id = id) with
  | none =>
    (Except.error (ApiError.notFound "Achievement not found or unauthorized"), achs)
  | some a =>
    if a.ownerId ≠ userId then
      (Except.error (ApiError.notFound "Achievement not found or unauthorized"), achs)
    else
      match date with
      | none => (Except.error ApiError.serverError, achs)
      | some d =>
        let a2 : Achievement :=
          { a with
            title := title.getD a.title
            sport := sport.getD a.sport
            date := d
            venue := venue.getD a.venue
            description := match description with
              | none => a.description
              | some s => some s
            updatedAt := now }
        (Except.ok a2, achs.map (fun b => if b.id = id then a2 else b))

/-- Handler for `DELETE /api/achievements/:id` (src/index.ts lines
362-392): the same collapsed 404 ownership check as the update handler,
then a 403 when the record is APPROVED, then the removal. -/
def deleteAchievement (achs : List Achievement) (userId id : String) :
    Except ApiError Unit × List Achievement :=
  match achs.find? (fun a => a.id = id) with
  | none =>
    (Except.error (ApiError.notFound "Achievement not found or unauthorized"), achs)
  | some a =>
    if a.ownerId ≠ userId then
      (Except.error (ApiError.notFound "Achievement not found or unauthorized"), achs)
    else if a.status = "APPROVED" then
      (Except.error (ApiError.forbidden "Cannot delete an approved achievement."), achs)
    else
      (Except.ok (), achs.filter (fun b => b.id ≠ id))

/-- Handler for `PATCH /api/achievements/:id/verify` (src/index.ts lines
394-436).  `reason` distinguishes an absent key (`none`: the Prisma update
receives `undefined` and keeps the stored `decisionReason`) from an
explicit JSON null (`some none`) and a string (`some (some s)`).
`decision` is stored into `status` unvalidated. -/
def verifyAchievement (users : List User) (achs : List Achievement)
    (coachId id decision : String)
    (reason : Option (Option String)) (now : Nat) :
    Except ApiError Achievement × List Achievement :=
  match users.find? (fun u => u.id = coachId) with
  | none => (Except.error (ApiError.forbidden "Forbidden: Not a coach"), achs)
  | some coach =>
    if coach.role ≠ "Coach" ∨ strTruthy coach.sport = false then
      (Except.error (ApiError.forbidden "Forbidden: Not a coach"), achs)
    else
      match achs.find? (fun a => a.id = id) with
      | none => (Except.error (ApiError.notFound "Achievement not found"), achs)
      | some a =>
        if coach.sport ≠ some a.sport then
          (Except.error (ApiError.forbidden
            "Forbidden: Cannot verify achievement for a different sport"), achs)
        else
          let a2 : Achievement :=
            { a with
              status := decision
              decisionReason :=
                if decision = "REJECTED" then
                  match reason with
                  | none => a.decisionReason
                  | some v => v
                else none
              verifiedById := some coach.id
              verifiedByName := some coach.username
              verifiedAt := some now }
          (Except.ok a2, achs.map (fun b => if b.id = id then a2 else b))

/-- Descending creation-time order modelling
`orderBy: { createdAt: "desc" }`. -/
def newestFirst (a b : Achievement) : Prop := b.createdAt ≤ a.createdAt

instance : DecidableRel newestFirst := fun a b => Nat.decLe b.createdAt a.createdAt

instance : IsTotal Achievement newestFirst :=
  ⟨fun a b => Nat.le_total b.createdAt a.createdAt⟩

instance : IsTrans Achievement newestFirst :=
  ⟨fun _ _ _ h1 h2 => Nat.le_trans h2 h1⟩

/-- Handler for `GET /api/achievements/pending` (src/index.ts lines
261-291).  The stable sort models the store's creation-time-descending
read order; each result row pairs the achievement with the included
`owner.username` (`none` would mean a dangling owner relation). -/
def getPendingAchievements (users : List User) (achs : List Achievement)
    (callerId : String) :
    Except ApiError (List (Achievement × Option String)) :=
  match users.find? (fun u => u.id = callerId) with
  | none => Except.error (ApiError.forbidden "Forbidden")
  | some coach =>
    if coach.role ≠ "Coach" ∨ strTruthy coach.sport = false then
      Except.error (ApiError.forbidden "Forbidden")
    else
      Except.ok
        ((List.insertionSort newestFirst
            (achs.filter (fun a =>
              decide (a.status = "PENDING" ∧ coach.sport = some a.sport)))).map
          (fun a => (a, (users.find? (fun u => u.id = a.ownerId)).map
            (fun u => u.username))))

/-- JavaScript `Math.round` on a nonnegative rational argument given
exactly: round half up (toward positive infinity on ties, per
ECMA-262).  Used on the spec side, where the formula
round(100 * approved / total) is exact arithmetic. -/
def jsRound (q : ℚ) : ℤ := ⌊q + 1/2⌋

/-- Binary digit count of n, computed with explicit fuel; fuel n + 1
always suffices since n halves every step.  The structural recursion on
the fuel keeps the definition kernel-computable. -/
def bits : ℕ → ℕ → ℕ
  | 0, _ => 0
  | f + 1, n => if n = 0 then 0 else bits f (n / 2) + 1

/-- Number of binary digits of n (0 for 0). -/
def bitlen (n : ℕ) : ℕ := bits (n + 1) n

/-- Nearest integer to x / y (y > 0), ties to even: the default IEEE-754
rounding applied by every JavaScript arithmetic operation. -/
def rneDiv (x y : ℕ) : ℕ :=
  if 2 * (x % y) < y then x / y
  else if y < 2 * (x % y) then x / y + 1
  else if (x / y) % 2 = 0 then x / y else x / y + 1

/-- Tests c ≤ x·2^k for an integer exponent k, in integer arithmetic. -/
def scaleLe (c x : ℕ) (k : ℤ) : Bool :=
  if 0 ≤ k then c ≤ x * 2 ^ k.toNat else c * 2 ^ (-k).toNat ≤ x

/-- Round-to-nearest-ties-to-even of x·2^k / y, in integer arithmetic. -/
def scaledRne (x y : ℕ) (k : ℤ) : ℕ :=
  if 0 ≤ k then rneDiv (x * 2 ^ k.toNat) y else rneDiv x (y * 2 ^ (-k).toNat)

/-- IEEE-754 binary64 value nearest to the fraction x / y (y > 0), as a
dyadic pair (m, p) of value m·2^p: the scale k is chosen so that
x·2^k / y lies in [2^52, 2^53) — the bit-length estimate k0 is corrected
by one comparison — and the 53-bit significand is the
round-to-nearest-ties-to-even of that quotient.  Returns (0, 0) for
x = 0.  Overflow and subnormals, far outside the magnitude of the
source's counters, are not modelled. -/
def fl64Frac (x y : ℕ) : ℕ × ℤ :=
  if x = 0 then (0, 0)
  else
    let k0 : ℤ := 52 - ((bitlen x : ℤ) - (bitlen y : ℤ))
    let k : ℤ := if scaleLe (2 ^ 52 * y) x k0 then k0 else k0 + 1
    (scaledRne x y k, -k)

/-- `Math.round` of a nonnegative dyadic m·2^p: the exact value rounded
half toward positive infinity, ⌊m·2^p + 1/2⌋, in integer arithmetic. -/
def roundHalfUpDyadic (m : ℕ) (p : ℤ) : ℕ :=
  if 0 ≤ p then m * 2 ^ p.toNat
  else (m + 2 ^ ((-p).toNat - 1)) / 2 ^ (-p).toNat

/-- Value of `Math.round((approved / total) * 100)` as the source computes
it on IEEE binary64 doubles (src/index.ts lines 563-568): the division
rounds to the nearest double, the multiplication by 100 rounds again, and
`Math.round` then rounds the exact value of that double half up.  This can
differ from exact round(100·approved/total): for 23/40 the double
(23/40)*100 is slightly below 57.5, giving 57 where exact arithmetic
gives 58. -/
def jsRatePct (approved total : ℕ) : ℕ :=
  let d1 := fl64Frac approved total
  let d2 := fl64Frac (d1.1 * 100) 1
  roundHalfUpDyadic d2.1 (d2.2 + d1.2)

/-- KPI payload returned by `GET /api/reports/coach` (src/index.ts lines
546-570). -/
structure CoachKpis where
  achievementsApproved : Nat
  achievementsPending : Nat
  regPending : Nat
  regConfirmed : Nat
  upcomingSessions7d : Nat
  activePlayersThisWeek : Nat
  attendanceRatePct : Option ℕ
  deriving DecidableEq, Repr

/-- Schedule requests created at or after `cutoff` whose schedule belongs
to `coachId`; models the Prisma filter
`where: { schedule: { coachId }, createdAt: { gte: cutoff } }`. -/
def requestsUnderCoach (schedules : List Schedule)
    (reqs : List ScheduleRequest) (coachId : String) (cutoff : Nat) :
    List ScheduleRequest :=
  reqs.filter (fun r =>
    decide (cutoff ≤ r.createdAt) &&
      Option.any (fun s => s.coachId == coachId)
        (schedules.find? (fun s => s.id = r.scheduleId)))

/-- Tests whether the user with the given id has the given sport and role
Player; models the relation filters
`owner: { sport: coach.sport, role: "Player" }` and
`player: { sport: coach.sport, role: "Player" }`. -/
def sportPlayerOk (users : List User) (sport : Option String)
    (uid : String) : Bool :=
  Option.any (fun u => u.sport == sport && u.role == "Player")
    (users.find? (fun u => u.id = uid))

/-- Handler for `GET /api/reports/coach` (src/index.ts lines 489-578).
The window cutoffs are parameters, as the source computes them from the
clock on entry; the groupBy-then-find-count dance of the source is a count
of the matching records (`_count` of an absent group defaults to 0 via
`|| 0`).  The attendance percentage goes through the binary64 model
`jsRatePct`, reproducing the source's floating-point evaluation of
`Math.round((approved / total) * 100)`. -/
def coachReports (users : List User) (achs : List Achievement)
    (regs : List TournamentRegistration) (schedules : List Schedule)
    (reqs : List ScheduleRequest) (coachId : String)
    (now thirtyDaysAgo sevenDaysAgo sevenDaysFromNow : Nat) :
    Except ApiError CoachKpis :=
  match users.find? (fun u => u.id = coachId) with
  | none => Except.error (ApiError.forbidden "Forbidden")
  | some coach =>
    if coach.role ≠ "Coach" ∨ strTruthy coach.sport = false then
      Except.error (ApiError.forbidden "Forbidden")
    else
      let reqs30 := requestsUnderCoach schedules reqs coach.id thirtyDaysAgo
      let reqs7 := requestsUnderCoach schedules reqs coach.id sevenDaysAgo
      Except.ok
        { achievementsApproved :=
            (achs.filter (fun a => a.status == "APPROVED" &&
              sportPlayerOk users coach.sport a.ownerId)).length
          achievementsPending :=
            (achs.filter (fun a => a.status == "PENDING" &&
              sportPlayerOk users coach.sport a.ownerId)).length
          regPending :=
            (regs.filter (fun r => r.regStatus == "PENDING" &&
              sportPlayerOk users coach.sport r.playerId)).length
          regConfirmed :=
            (regs.filter (fun r => r.regStatus == "CONFIRMED" &&
              sportPlayerOk users coach.sport r.playerId)).length
          upcomingSessions7d :=
            (schedules.filter (fun s => s.coachId == coach.id &&
              decide (now ≤ s.date ∧ s.date ≤ sevenDaysFromNow))).length
          activePlayersThisWeek := (reqs7.map (fun r => r.playerId)).dedup.length
          attendanceRatePct :=
            if 0 < reqs30.length then
              some (jsRatePct
                (reqs30.filter (fun r => r.status == "APPROVED")).length
                reqs30.length)
            else none }

/-- Modelled from the spec (the attendanceRatePct bullet of
ComputeCoachKPIs): round(100 * approvedCount / totalCount) over the
requests of the window, null when there were zero such requests.  Used as
the specification side of the refinement theorem for the report handler. -/
def specAttendance (reqs30 : List ScheduleRequest) : Option ℤ :=
  if reqs30.length = 0 then none
  else
    some (jsRound
      ((100 * ((reqs30.filter (fun r => r.status == "APPROVED")).length : ℚ)) /
        (reqs30.length : ℚ)))

/-- One achievement-store transition performed by a mutating lifecycle
handler (create, owner update, owner delete, coach verify), on either the
success or the failure path.  The create step carries freshness of the
store-assigned id. -/
inductive Step : List Achievement → List Achievement → Prop
  | create (achs : List Achievement) (userId : String) (title : Option String)
      (date : Option Nat) (description proof sport venue : Option String)
      (newId : String) (now : Nat)
      (fresh : achs.find? (fun a => a.id = newId) = none) :
      Step achs (createAchievement achs userId title date description proof
        sport venue newId now).2
  | update (achs : List Achievement) (userId id : String)
      (title sport : Option String) (date : Option Nat)
      (venue description : Option String) (now : Nat) :
      Step achs (updateAchievement achs userId id title sport date venue
        description now).2
  | delete (achs : List Achievement) (userId id : String) :
      Step achs (deleteAchievement achs userId id).2
  | verify (users : List User) (achs : List Achievement)
      (coachId id decision : String) (reason : Option (Option String))
      (now : Nat) :
      Step achs (verifyAchievement users achs coachId id decision reason now).2

/-- Achievement stores reachable from the empty store through the
lifecycle handlers. -/
inductive Reachable : List Achievement → Prop
  | nil : Reachable []
  | step {s t : List Achievement} : Reachable s → Step s t → Reachable t

/-- Invariant direction that does hold: a non-null decisionReason occurs
only on a REJECTED record. -/
def StatusInv (a : Achievement) : Prop :=
  a.decisionReason ≠ none → a.status = "REJECTED"

/-- A cricket coach used in the concrete instances. -/
def coachCricket : User :=
  { id := "c1", username := "coach1", role := "Coach", sport := some "cricket" }

/-- A football coach used in the concrete instances. -/
def coachFootball : User :=
  { id := "c2", username := "coach2", role := "Coach", sport := some "football" }

/-- The pending cricket achievement of player p1, as created by the create
handler. -/
def aPending : Achievement :=
  { id := "a1", ownerId := "p1", title := "State Champion", date := 100
    description := none, proof := none, sport := "cricket", venue := "Delhi"
    status := "PENDING", decisionReason := none
    verifiedById := none, verifiedByName := none, verifiedAt := none
    createdAt := 100, updatedAt := 100 }

/-- Store holding exactly `aPending`, built by the create handler. -/
def demoStore0 : List Achievement :=
  (createAchievement [] "p1" (some "State Champion") (some 100) none none
    (some "cricket") (some "Delhi") "a1" 100).2

/-- Store after coach c1 rejects a1 without sending a reason. -/
def demoStoreRej : List Achievement :=
  (verifyAchievement [coachCricket] demoStore0 "c1" "a1" "REJECTED" none 200).2

/-- Store after coach c1 rejects a1 with reason "blurry". -/
def demoStoreRejR : List Achievement :=
  (verifyAchievement [coachCricket] demoStore0 "c1" "a1" "REJECTED"
    (some (some "blurry")) 200).2

/-- The a1 record of `demoStoreRejR`. -/
def aRejR : Achievement :=
  { aPending with
    status := "REJECTED", decisionReason := some "blurry"
    verifiedById := some "c1", verifiedByName := some "coach1"
    verifiedAt := some 200 }

/-- The a1 record after coach c1 approves it at time 300. -/
def aApproved : Achievement :=
  { aPending with
    status := "APPROVED", decisionReason := none
    verifiedById := some "c1", verifiedByName := some "coach1"
    verifiedAt := some 300 }

/-- Store holding exactly the approved a1 record. -/
def demoStoreApp : List Achievement :=
  (verifyAchievement [coachCricket] demoStore0 "c1" "a1" "APPROVED" none 300).2

/-- C1: for every caller and every existing achievement, if the
achievement's sport differs from the caller's sport, or the caller's role
is not Coach, or the caller has no sport, the verify handler fails with
the 403 authorization response and the achievement store is left
unchanged; in particular it never succeeds on a sport mismatch.  The
hypothesis quantifies over the caller's record, so a caller with no user
record is covered as well. -/
theorem verify_sport_guard (users : List User) (achs : List Achievement)
    (coachId id decision : String) (reason : Option (Option String)) (now : Nat)
    (a : Achievement) (ha : achs.find? (fun x => x.id = id) = some a)
    (hbad : Option.all
      (fun coach => decide (coach.sport ≠ some a.sport ∨ coach.role ≠ "Coach" ∨
        strTruthy coach.sport = false))
      (users.find? (fun u => u.id = coachId)) = true) :
    ∃ msg, verifyAchievement users achs coachId id decision reason now =
      (Except.error (ApiError.forbidden msg), achs) := by
  unfold verifyAchievement
  split
  · exact ⟨"Forbidden: Not a coach", rfl⟩
  next coach hu =>
    rw [hu] at hbad
    simp only [Option.all, decide_eq_true_eq] at hbad
    split
    · exact ⟨"Forbidden: Not a coach", rfl⟩
    next hrc =>
      push_neg at hrc
      split
      next haa => rw [ha] at haa; cases haa
      next b haa =>
        rw [ha] at haa
        cases haa
        split
        · exact ⟨"Forbidden: Cannot verify achievement for a different sport", rfl⟩
        next hmis =>
          push_neg at hmis
          rcases hbad with h | h | h
          · exact absurd hmis h
          · exact absurd hrc.1 h
          · exact absurd h hrc.2

/-- Witness for C1: the football coach c2 attempting to verify the cricket
achievement a1 is rejected with a 403 and the store is unchanged. -/
theorem verify_sport_guard_witness :
    ∃ msg, verifyAchievement [coachFootball] demoStore0 "c2" "a1" "APPROVED" none 5 =
      (Except.error (ApiError.forbidden msg), demoStore0) :=
  verify_sport_guard [coachFootball] demoStore0 "c2" "a1" "APPROVED" none 5
    aPending (by decide) (by decide)

/-- C5 counterexample: a valid cricket coach verifying a nonexistent
achievement id receives the 404 NotFoundError response
"Achievement not found", which is not a 403 authorization response, so the
claim that the missing-achievement case fails with the same
AuthorizationError class as the not-a-Coach, no-sport and sport-mismatch
cases is false. -/
theorem verify_missing_counterexample :
    (verifyAchievement [coachCricket] [] "c1" "zzz" "APPROVED" none 5).1 =
      Except.error (ApiError.notFound "Achievement not found") ∧
    isForbidden (ApiError.notFound "Achievement not found") = false :=
  ⟨rfl, rfl⟩

/-- C5 amended: for every caller that passes the coach checks (a user
record with role Coach and a truthy sport) and every achievement id with
no record in the store, the verify handler fails with the 404
NotFoundError response "Achievement not found" — a different error class
from the 403 of the not-a-Coach, no-sport and sport-mismatch cases — and
the store is unchanged. -/
theorem verify_missing_notFound (users : List User) (achs : List Achievement)
    (coachId id decision : String) (reason : Option (Option String)) (now : Nat)
    (coach : User) (hc : users.find? (fun u => u.id = coachId) = some coach)
    (hrole : coach.role = "Coach") (hsport : strTruthy coach.sport = true)
    (hmiss : achs.find? (fun x => x.id = id) = none) :
    verifyAchievement users achs coachId id decision reason now =
      (Except.error (ApiError.notFound "Achievement not found"), achs) := by
  unfold verifyAchievement
  split
  next hu => rw [hc] at hu; cases hu
  next coach2 hu =>
    rw [hc] at hu
    cases hu
    split
    next hrc =>
      rcases hrc with h | h
      · exact absurd hrole h
      · rw [hsport] at h; cases h
    next =>
      split
      next => rfl
      next b haa => rw [hmiss] at haa; cases haa

/-- Witness for the amended C5: coach c1 verifying the unknown id zzz on
the empty store. -/
theorem verify_missing_notFound_witness :
    verifyAchievement [coachCricket] [] "c1" "zzz" "APPROVED" none 5 =
      (Except.error (ApiError.notFound "Achievement not found"), []) :=
  verify_missing_notFound [coachCricket] [] "c1" "zzz" "APPROVED" none 5
    coachCricket (by decide) (by decide) (by decide) (by decide)

/-- C6: for every achievement with status APPROVED and its owner as
caller, the delete handler fails with the 403 ConflictError response
"Cannot delete an approved achievement." and the store is returned
unchanged — no deletion and no other mutation happens on this path. -/
theorem delete_approved_conflict (achs : List Achievement) (userId id : String)
    (a : Achievement) (ha : achs.find? (fun x => x.id = id) = some a)
    (hown : a.ownerId = userId) (happ : a.status = "APPROVED") :
    deleteAchievement achs userId id =
      (Except.error (ApiError.forbidden "Cannot delete an approved achievement."),
        achs) := by
  unfold deleteAchievement
  split
  next hm => rw [ha] at hm; cases hm
  next b hm =>
    rw [ha] at hm
    cases hm
    rw [if_neg (by simp [hown]), if_pos happ]

/-- Witness for C6: the owner p1 deleting the approved record a1. -/
theorem delete_approved_conflict_witness :
    deleteAchievement demoStoreApp "p1" "a1" =
      (Except.error (ApiError.forbidden "Cannot delete an approved achievement."),
        demoStoreApp) :=
  delete_approved_conflict demoStoreApp "p1" "a1" aApproved
    (by decide) (by decide) (by decide)

/-- C7: for every caller and achievement id, when no record with that id
exists or the record exists with a different owner, the update handler and
the delete handler both return the identical 404 response
"Achievement not found or unauthorized", so the caller cannot distinguish
a nonexistent record from another user's record, and neither handler
mutates the store. -/
theorem notFound_ownership_collapse (achs : List Achievement) (userId id : String)
    (title sport : Option String) (date : Option Nat)
    (venue description : Option String) (now : Nat)
    (h : achs.find? (fun x => x.id = id) = none ∨
      ∃ a, achs.find? (fun x => x.id = id) = some a ∧ a.ownerId ≠ userId) :
    updateAchievement achs userId id title sport date venue description now =
      (Except.error (ApiError.notFound "Achievement not found or unauthorized"),
        achs) ∧
    deleteAchievement achs userId id =
      (Except.error (ApiError.notFound "Achievement not found or unauthorized"),
        achs) := by
  constructor
  · unfold updateAchievement
    split
    next => rfl
    next b hm =>
      rcases h with hnone | ⟨a, hsome, howner⟩
      · rw [hnone] at hm; cases hm
      · rw [hsome] at hm
        cases hm
        rw [if_pos howner]
  · unfold deleteAchievement
    split
    next => rfl
    next b hm =>
      rcases h with hnone | ⟨a, hsome, howner⟩
      · rw [hnone] at hm; cases hm
      · rw [hsome] at hm
        cases hm
        rw [if_pos howner]

/-- Witness for C7: a caller who is not the owner of a1 receives the 404
response from both handlers and the store is unchanged. -/
theorem notFound_ownership_collapse_witness :
    updateAchievement demoStore0 "intruder" "a1" (some "T") none (some 7)
        none none 7 =
      (Except.error (ApiError.notFound "Achievement not found or unauthorized"),
        demoStore0) ∧
    deleteAchievement demoStore0 "intruder" "a1" =
      (Except.error (ApiError.notFound "Achievement not found or unauthorized"),
        demoStore0) :=
  notFound_ownership_collapse demoStore0 "intruder" "a1" (some "T") none
    (some 7) none none 7 (Or.inr ⟨aPending, by decide, by decide⟩)

/-- C10: the verify handler places no precondition on the achievement's
current status and does not validate the decision value: for every
caller-supplied decision string and every stored achievement whose sport
equals the acting coach's sport, the call succeeds and writes exactly that
string into `status` (together with the reason rule and the verification
stamps), silently overwriting any prior verification. -/
theorem verify_unvalidated_decision (users : List User) (achs : List Achievement)
    (coachId id decision : String) (reason : Option (Option String)) (now : Nat)
    (coach : User) (hc : users.find? (fun u => u.id = coachId) = some coach)
    (hrole : coach.role = "Coach") (hsport : strTruthy coach.sport = true)
    (a : Achievement) (ha : achs.find? (fun x => x.id = id) = some a)
    (hmatch : coach.sport = some a.sport) :
    (verifyAchievement users achs coachId id decision reason now).1 =
      Except.ok
        { a with
          status := decision
          decisionReason :=
            if decision = "REJECTED" then
              match reason with
              | none => a.decisionReason
              | some v => v
            else none
          verifiedById := some coach.id
          verifiedByName := some coach.username
          verifiedAt := some now } := by
  unfold verifyAchievement
  split
  next hu => rw [hc] at hu; cases hu
  next coach2 hu =>
    rw [hc] at hu
    cases hu
    split
    next hrc =>
      rcases hrc with h | h
      · exact absurd hrole h
      · rw [hsport] at h; cases h
    next =>
      split
      next haa => rw [ha] at haa; cases haa
      next b haa =>
        rw [ha] at haa
        cases haa
        rw [if_neg (by simp [hmatch])]

/-- Witness for C10: coach c1 re-verifies the already APPROVED record a1
with the out-of-vocabulary decision MAYBE, which succeeds and stores the
status MAYBE. -/
theorem verify_unvalidated_decision_witness :
    (verifyAchievement [coachCricket] demoStoreApp "c1" "a1" "MAYBE" none 7).1 =
      Except.ok
        { aApproved with
          status := "MAYBE"
          decisionReason := none
          verifiedById := some "c1"
          verifiedByName := some "coach1"
          verifiedAt := some 7 } := by
  have h := verify_unvalidated_decision [coachCricket] demoStoreApp "c1" "a1"
    "MAYBE" none 7 coachCricket (by decide) (by decide) (by decide)
    aApproved (by decide) (by decide)
  simpa using h

/-- C2 counterexample: the store holds the single APPROVED record a1 owned
by p1, yet the owner's update call succeeds, changes the title, the date
and the update stamp, and writes the changed record back to the store —
the record is not immutable to its owner once APPROVED. -/
theorem approved_owner_update_counterexample :
    demoStoreApp.map (fun a => a.status) = ["APPROVED"] ∧
    updateAchievement demoStoreApp "p1" "a1" (some "New Title") none (some 500)
        none none 500 =
      (Except.ok { aApproved with title := "New Title", date := 500, updatedAt := 500 },
        [{ aApproved with title := "New Title", date := 500, updatedAt := 500 }]) ∧
    ({ aApproved with title := "New Title", date := 500, updatedAt := 500 } :
      Achievement) ≠ aApproved :=
  ⟨by decide, rfl, by decide⟩

/-- C2 amended: once APPROVED, an achievement can no longer be deleted by
its owner (the delete handler fails with the 403 ConflictError response
and leaves the store unchanged), but it is not immutable: the owner's
update handler checks only ownership, so an update with a date field
succeeds regardless of the record's status. -/
theorem approved_blocks_delete_not_update (achs : List Achievement)
    (userId id : String) (a : Achievement)
    (ha : achs.find? (fun x => x.id = id) = some a)
    (hown : a.ownerId = userId) :
    (a.status = "APPROVED" →
      deleteAchievement achs userId id =
        (Except.error
          (ApiError.forbidden "Cannot delete an approved achievement."), achs)) ∧
    (∀ (title sport : Option String) (d : Nat) (venue description : Option String)
        (now : Nat),
      ((updateAchievement achs userId id title sport (some d) venue description
        now).1).isOk = true) := by
  constructor
  · intro happ
    unfold deleteAchievement
    split
    next hm => rw [ha] at hm; cases hm
    next b hm =>
      rw [ha] at hm
      cases hm
      rw [if_neg (by simp [hown]), if_pos happ]
  · intro title sport d venue description now
    unfold updateAchievement
    split
    next hm => rw [ha] at hm; cases hm
    next b hm =>
      rw [ha] at hm
      cases hm
      rw [if_neg (by simp [hown])]
      rfl

/-- Witness for the amended C2: on the APPROVED record a1 the owner's
delete fails with the 403 conflict response while the owner's update
succeeds. -/
theorem approved_blocks_delete_not_update_witness :
    (deleteAchievement demoStoreApp "p1" "a1" =
      (Except.error (ApiError.forbidden "Cannot delete an approved achievement."),
        demoStoreApp)) ∧
    ((updateAchievement demoStoreApp "p1" "a1" (some "New Title") none (some 500)
      none none 500).1).isOk = true := by
  have h := approved_blocks_delete_not_update demoStoreApp "p1" "a1" aApproved
    (by decide) (by decide)
  exact ⟨h.1 (by decide), h.2 (some "New Title") none 500 none none 500⟩

/-- C4 counterexample: the store holds the a1 record REJECTED with reason
"blurry"; coach c1 verifies it again with decision REJECTED and no reason
field.  The call succeeds, but the resulting record retains the old
decisionReason "blurry" instead of carrying the (absent, hence null)
reason of the call: the Prisma update receives `undefined` for the field
and skips it, so `decisionReason = reason` does not hold for every
successful verify call. -/
theorem verify_reason_retained_counterexample :
    (verifyAchievement [coachCricket] demoStoreRejR "c1" "a1" "REJECTED" none
        400).1 =
      Except.ok { aRejR with verifiedAt := some 400 } ∧
    ({ aRejR with verifiedAt := some 400 } : Achievement).decisionReason =
      some "blurry" :=
  ⟨rfl, rfl⟩

/-- C4 amended: every successful verify call yields a record with
status = decision; decisionReason equal to the supplied reason when
decision = REJECTED and the reason field is present, equal to the
previous decisionReason when decision = REJECTED and the reason field is
absent, and null when decision is not REJECTED; and verifiedById,
verifiedByName, verifiedAt set together to the acting coach's id, the
coach's username and the call time.  Every successful owner update leaves
status, decisionReason and the three verification fields of the record
unchanged. -/
theorem verify_postcondition (users : List User) (achs : List Achievement)
    (coachId id decision : String) (reason : Option (Option String)) (now : Nat)
    (r : Achievement) (s2 : List Achievement) (coach : User) (a : Achievement)
    (hc : users.find? (fun u => u.id = coachId) = some coach)
    (ha : achs.find? (fun x => x.id = id) = some a)
    (hk : verifyAchievement users achs coachId id decision reason now =
      (Except.ok r, s2)) :
    (r.status = decision ∧
     r.decisionReason =
       (if decision = "REJECTED" then
         match reason with
         | none => a.decisionReason
         | some v => v
       else none) ∧
     r.verifiedById = some coach.id ∧
     r.verifiedByName = some coach.username ∧
     r.verifiedAt = some now) ∧
    (∀ (achs2 : List Achievement) (uid id2 : String)
        (title sport : Option String) (date : Option Nat)
        (venue description : Option String) (n2 : Nat)
        (r2 : Achievement) (s3 : List Achievement) (b : Achievement),
      achs2.find? (fun x => x.id = id2) = some b →
      updateAchievement achs2 uid id2 title sport date venue description n2 =
        (Except.ok r2, s3) →
      r2.status = b.status ∧ r2.decisionReason = b.decisionReason ∧
      r2.verifiedById = b.verifiedById ∧ r2.verifiedByName = b.verifiedByName ∧
      r2.verifiedAt = b.verifiedAt) := by
  constructor
  · unfold verifyAchievement at hk
    split at hk
    next => cases hk
    next coach2 hu =>
      rw [hc] at hu
      cases hu
      split at hk
      next => cases hk
      next =>
        split at hk
        next => cases hk
        next b haa =>
          rw [ha] at haa
          cases haa
          split at hk
          next => cases hk
          next =>
            injection hk with h1 h2
            injection h1 with h1
            subst h1
            exact ⟨rfl, rfl, rfl, rfl, rfl⟩
  · intro achs2 uid id2 title sport date venue description n2 r2 s3 b hb hk2
    unfold updateAchievement at hk2
    split at hk2
    next => cases hk2
    next b2 hm =>
      rw [hb] at hm
      cases hm
      split at hk2
      next => cases hk2
      next =>
        split at hk2
        next => cases hk2
        next =>
          injection hk2 with h1 h2
          injection h1 with h1
          subst h1
          exact ⟨rfl, rfl, rfl, rfl, rfl⟩

/-- Witness for the amended C4: coach c1 rejecting the pending a1 with
reason "blurry" stamps the record as claimed, and the owner update of the
approved a1 leaves its verification fields untouched. -/
theorem verify_postcondition_witness :
    (aRejR.status = "REJECTED" ∧
     aRejR.decisionReason =
       (if "REJECTED" = "REJECTED" then
         match (some (some "blurry") : Option (Option String)) with
         | none => aPending.decisionReason
         | some v => v
       else none) ∧
     aRejR.verifiedById = some coachCricket.id ∧
     aRejR.verifiedByName = some coachCricket.username ∧
     aRejR.verifiedAt = some 200) ∧
    (({ aApproved with title := "New Title", date := 500, updatedAt := 500 }
        : Achievement).status = aApproved.status ∧
     ({ aApproved with title := "New Title", date := 500, updatedAt := 500 }
        : Achievement).decisionReason = aApproved.decisionReason ∧
     ({ aApproved with title := "New Title", date := 500, updatedAt := 500 }
        : Achievement).verifiedById = aApproved.verifiedById ∧
     ({ aApproved with title := "New Title", date := 500, updatedAt := 500 }
        : Achievement).verifiedByName = aApproved.verifiedByName ∧
     ({ aApproved with title := "New Title", date := 500, updatedAt := 500 }
        : Achievement).verifiedAt = aApproved.verifiedAt) := by
  have h := verify_postcondition [coachCricket] demoStore0 "c1" "a1" "REJECTED"
    (some (some "blurry")) 200 aRejR demoStoreRejR coachCricket aPending
    (by decide) (by decide) rfl
  exact ⟨h.1, h.2 demoStoreApp "p1" "a1" (some "New Title") none (some 500)
    none none 500
    { aApproved with title := "New Title", date := 500, updatedAt := 500 }
    [{ aApproved with title := "New Title", date := 500, updatedAt := 500 }]
    aApproved (by decide) rfl⟩

/-- Membership in a store after a keyed write: the element is the written
record or was already present. -/
lemma mem_store_write {b a2 : Achievement} {achs : List Achievement} {id : String}
    (h : b ∈ achs.map (fun x => if x.id = id then a2 else x)) :
    b = a2 ∨ b ∈ achs := by
  rcases List.mem_map.mp h with ⟨x, hx, hxe⟩
  by_cases hid : x.id = id
  · rw [if_pos hid] at hxe
    exact Or.inl hxe.symm
  · rw [if_neg hid] at hxe
    exact Or.inr (hxe ▸ hx)

/-- Every lifecycle step preserves the one-directional decisionReason
invariant. -/
lemma statusInv_step {s t : List Achievement} (hst : Step s t)
    (hInv : ∀ a ∈ s, StatusInv a) : ∀ a ∈ t, StatusInv a := by
  cases hst with
  | create achs userId title date description proof sport venue newId now fresh =>
    intro b hb
    unfold createAchievement at hb
    split at hb
    · exact hInv b hb
    · rcases List.mem_cons.mp hb with hb | hb
      · intro hr
        subst hb
        simp [StatusInv] at hr
      · exact hInv b hb
  | update achs userId id title sport date venue description now =>
    intro b hb
    unfold updateAchievement at hb
    split at hb
    · exact hInv b hb
    next a hm =>
      split at hb
      · exact hInv b hb
      · split at hb
        · exact hInv b hb
        · rcases mem_store_write hb with hb | hb
          · subst hb
            intro hr
            exact hInv a (List.mem_of_find?_eq_some hm) hr
          · exact hInv b hb
  | delete achs userId id =>
    intro b hb
    unfold deleteAchievement at hb
    split at hb
    · exact hInv b hb
    next a hm =>
      split at hb
      · exact hInv b hb
      · split at hb
        · exact hInv b hb
        · exact hInv b (List.mem_of_mem_filter hb)
  | verify users achs coachId id decision reason now =>
    intro b hb
    unfold verifyAchievement at hb
    split at hb
    · exact hInv b hb
    next coach hu =>
      split at hb
      · exact hInv b hb
      · split at hb
        · exact hInv b hb
        next a hm =>
          split at hb
          · exact hInv b hb
          · rcases mem_store_write hb with hb | hb
            · subst hb
              intro hr
              by_cases hd : decision = "REJECTED"
              · exact hd
              · rw [if_neg hd] at hr
                exact absurd rfl hr
            · exact hInv b hb

/-- C3 counterexample: the store obtained by creating the pending cricket
achievement a1 and having coach c1 reject it without sending a reason is
reachable through the lifecycle handlers, yet its only record has
status REJECTED and a null decisionReason, so the claimed equivalence
status = REJECTED iff decisionReason is non-null fails on reachable
states. -/
theorem statusReason_iff_counterexample :
    Reachable demoStoreRej ∧
    demoStoreRej.map (fun a => (a.status, a.decisionReason)) =
      [("REJECTED", (none : Option String))] := by
  constructor
  · have h0 : Reachable demoStore0 :=
      Reachable.step Reachable.nil
        (Step.create [] "p1" (some "State Champion") (some 100) none none
          (some "cricket") (some "Delhi") "a1" 100 (by decide))
    exact Reachable.step h0
      (Step.verify [coachCricket] demoStore0 "c1" "a1" "REJECTED" none 200)
  · decide

/-- C3 amended: over every store reachable through the lifecycle handlers,
a non-null decisionReason implies status = REJECTED, and a successful
verify with decision APPROVED always resets decisionReason to null (also
on a previously REJECTED record).  The converse direction of the claimed
equivalence fails when a rejecting verify omits the reason field. -/
theorem statusReason_invariant (s : List Achievement) (hs : Reachable s) :
    (∀ a ∈ s, a.decisionReason ≠ none → a.status = "REJECTED") ∧
    (∀ (users : List User) (achs : List Achievement) (coachId id : String)
        (reason : Option (Option String)) (now : Nat) (r : Achievement)
        (s2 : List Achievement),
      verifyAchievement users achs coachId id "APPROVED" reason now =
        (Except.ok r, s2) →
      r.decisionReason = none) := by
  constructor
  · induction hs with
    | nil => intro a ha; cases ha
    | step hr hst ih => exact statusInv_step hst ih
  · intro users achs coachId id reason now r s2 hk
    unfold verifyAchievement at hk
    split at hk
    next => cases hk
    next coach hu =>
      split at hk
      next => cases hk
      next =>
        split at hk
        next => cases hk
        next a hm =>
          split at hk
          next => cases hk
          next =>
            injection hk with h1 h2
            injection h1 with h1
            subst h1
            simp

/-- Witness for the amended C3: the reachable store in which a1 carries
the rejection reason "blurry" satisfies the invariant (its record is
REJECTED), and the concrete re-approval of a1 has a null decisionReason. -/
theorem statusReason_invariant_witness :
    aRejR.status = "REJECTED" ∧ aApproved.decisionReason = none := by
  have hreach : Reachable demoStoreRejR := by
    have h0 : Reachable demoStore0 :=
      Reachable.step Reachable.nil
        (Step.create [] "p1" (some "State Champion") (some 100) none none
          (some "cricket") (some "Delhi") "a1" 100 (by decide))
    exact Reachable.step h0
      (Step.verify [coachCricket] demoStore0 "c1" "a1" "REJECTED"
        (some (some "blurry")) 200)
  have h := statusReason_invariant demoStoreRejR hreach
  exact ⟨h.1 aRejR (by decide) (by decide),
    h.2 [coachCricket] demoStore0 "c1" "a1" none 300 aApproved [aApproved] rfl⟩

/-- Player p1 with display name neha, owner of the demo achievements. -/
def playerOne : User :=
  { id := "p1", username := "neha", role := "Player", sport := some "cricket" }

/-- A second pending cricket achievement of p1, created later than a1. -/
def aPending2 : Achievement :=
  { aPending with id := "a2", createdAt := 250, updatedAt := 250 }

/-- A pending football achievement of p1. -/
def aPendingFoot : Achievement := { aPending with id := "a3", sport := "football" }

/-- An approved cricket achievement of p1. -/
def aApprovedC : Achievement := { aPending with id := "a4", status := "APPROVED" }

/-- Users of the pending-list instance. -/
def pendingUsers : List User := [coachCricket, playerOne]

/-- Store of the pending-list instance: two pending cricket records, one
pending football record, one approved cricket record. -/
def pendingStore : List Achievement :=
  [aPending, aPendingFoot, aApprovedC, aPending2]

/-- Expected pending-list response for coach c1: the two pending cricket
records, newest first, annotated with the owner's display name. -/
def pendingRows : List (Achievement × Option String) :=
  [(aPending2, some "neha"), (aPending, some "neha")]

/-- C8: for every caller with a user record of role Coach and a truthy
sport, the pending-list handler succeeds and returns exactly the
achievements with status PENDING and the coach's sport (as a permutation
of that filter), ordered newest-created-first, each annotated with the
owner's display name; for a caller whose record is not a Coach or has no
sport, or who has no user record, it fails with the 403 authorization
response. -/
theorem pending_list_spec (users : List User) (achs : List Achievement)
    (callerId : String) :
    (∀ coach, users.find? (fun u => u.id = callerId) = some coach →
      coach.role = "Coach" → strTruthy coach.sport = true →
      ∀ l, getPendingAchievements users achs callerId = Except.ok l →
        (l.map Prod.fst).Perm
          (achs.filter (fun a =>
            decide (a.status = "PENDING" ∧ coach.sport = some a.sport))) ∧
        l.Pairwise (fun p q => q.1.createdAt ≤ p.1.createdAt) ∧
        ∀ p ∈ l, p.2 = (users.find? (fun u => u.id = p.1.ownerId)).map
          (fun u => u.username)) ∧
    (∀ coach, users.find? (fun u => u.id = callerId) = some coach →
      coach.role = "Coach" → strTruthy coach.sport = true →
      (getPendingAchievements users achs callerId).isOk = true) ∧
    (∀ coach, users.find? (fun u => u.id = callerId) = some coach →
      (coach.role ≠ "Coach" ∨ strTruthy coach.sport = false) →
      getPendingAchievements users achs callerId =
        Except.error (ApiError.forbidden "Forbidden")) ∧
    (users.find? (fun u => u.id = callerId) = none →
      getPendingAchievements users achs callerId =
        Except.error (ApiError.forbidden "Forbidden")) := by
  refine ⟨?_, ?_, ?_, ?_⟩
  · intro coach hc hrole hsport l hl
    unfold getPendingAchievements at hl
    split at hl
    next hu => rw [hc] at hu; cases hu
    next coach2 hu =>
      rw [hc] at hu
      cases hu
      split at hl
      next => cases hl
      next =>
        injection hl with hl
        subst hl
        refine ⟨?_, ?_, ?_⟩
        · rw [List.map_map]
          rw [show (Prod.fst ∘ fun a : Achievement =>
              (a, (users.find? (fun u => u.id = a.ownerId)).map
                (fun u => u.username))) = id from rfl]
          rw [List.map_id]
          exact List.perm_insertionSort newestFirst
            (achs.filter (fun a =>
              decide (a.status = "PENDING" ∧ coach.sport = some a.sport)))
        · exact List.Pairwise.map _ (fun a b h => h)
            (List.sorted_insertionSort newestFirst
              (achs.filter (fun a =>
                decide (a.status = "PENDING" ∧ coach.sport = some a.sport))))
        · intro p hp
          rcases List.mem_map.mp hp with ⟨a, ha2, rfl⟩
          rfl
  · intro coach hc hrole hsport
    unfold getPendingAchievements
    split
    next hu => rw [hc] at hu; cases hu
    next coach2 hu =>
      rw [hc] at hu
      cases hu
      rw [if_neg (by simp [hrole, hsport])]
      rfl
  · intro coach hc hbad
    unfold getPendingAchievements
    split
    next => rfl
    next coach2 hu =>
      rw [hc] at hu
      cases hu
      rw [if_pos hbad]
  · intro hnone
    unfold getPendingAchievements
    split
    next => rfl
    next coach2 hu => rw [hnone] at hu; cases hu

/-- Witness for C8: on the four-record store, coach c1 receives exactly
the two pending cricket records, newest first, annotated with neha; the
permutation, the ordering, one annotation instance and the concrete
response are checked. -/
theorem pending_list_spec_witness :
    (pendingRows.map Prod.fst).Perm
      (pendingStore.filter (fun a =>
        decide (a.status = "PENDING" ∧ coachCricket.sport = some a.sport))) ∧
    pendingRows.Pairwise (fun p q => q.1.createdAt ≤ p.1.createdAt) ∧
    ((aPending2, (some "neha" : Option String)).2 =
      (pendingUsers.find? (fun u =>
        u.id = (aPending2, (some "neha" : Option String)).1.ownerId)).map
        (fun u => u.username)) ∧
    getPendingAchievements pendingUsers pendingStore "c1" =
      Except.ok pendingRows := by
  have h := (pending_list_spec pendingUsers pendingStore "c1").1 coachCricket
    (by decide) (by decide) (by decide) pendingRows rfl
  exact ⟨h.1, h.2.1, h.2.2 (aPending2, some "neha") (by decide), rfl⟩

/-- Coaching schedule s1 of coach c1 used in the KPI instances. -/
def sched1 : Schedule := { id := "s1", coachId := "c1", date := 50 }

/-- Schedule requests of the KPI witness instance: three in the 30-day
window (two approved, one pending), one before it. -/
def kpiReqs : List ScheduleRequest :=
  [{ id := "r1", scheduleId := "s1", playerId := "p1", status := "APPROVED",
     createdAt := 80 },
   { id := "r2", scheduleId := "s1", playerId := "p2", status := "APPROVED",
     createdAt := 90 },
   { id := "r3", scheduleId := "s1", playerId := "p3", status := "PENDING",
     createdAt := 95 },
   { id := "r4", scheduleId := "s1", playerId := "p1", status := "APPROVED",
     createdAt := 5 }]

/-- Forty schedule requests under schedule s1, all created in the KPI
window, of which the first twenty-three are approved. -/
def cexReqs : List ScheduleRequest :=
  (List.range 40).map (fun i =>
    { id := "r", scheduleId := "s1", playerId := "p",
      status := if i < 23 then "APPROVED" else "PENDING", createdAt := 80 })

/-- C9 counterexample: forty schedule requests in the window, twenty-three
of them approved.  The handler reports attendanceRatePct 57 — the double
(23/40)*100 is slightly below 57.5 and Math.round takes it down — while
the spec formula round(100·23/40) = round(57.5) gives 58, so the claimed
equality between the handler value and round(100·approved/total) is false
at this input. -/
theorem coach_kpis_attendance_counterexample :
    coachReports [coachCricket] [] [] [sched1] cexReqs "c1" 100 10 50 200 =
      Except.ok
        { achievementsApproved := 0
          achievementsPending := 0
          regPending := 0
          regConfirmed := 0
          upcomingSessions7d := 0
          activePlayersThisWeek := 1
          attendanceRatePct := some 57 } ∧
    specAttendance (requestsUnderCoach [sched1] cexReqs "c1" 10) = some 58 ∧
    ((some 57 : Option ℕ).map (fun n => (n : ℤ))) ≠
      specAttendance (requestsUnderCoach [sched1] cexReqs "c1" 10) := by
  have hspec : specAttendance (requestsUnderCoach [sched1] cexReqs "c1" 10) =
      some 58 := by
    have e1 : (requestsUnderCoach [sched1] cexReqs "c1" 10).length = 40 := by
      decide
    have e2 : ((requestsUnderCoach [sched1] cexReqs "c1" 10).filter
        (fun r => r.status == "APPROVED")).length = 23 := by decide
    simp only [specAttendance, e1, e2]
    norm_num [jsRound, Int.floor_eq_iff]
  refine ⟨by decide, hspec, ?_⟩
  rw [hspec]
  simp

/-- C9 amended: for every caller passing the coach checks, the KPI payload
has attendanceRatePct = null exactly when zero schedule requests under the
coach's schedules were created in the trailing-30-day window; otherwise it
equals Math.round of the IEEE-double evaluation of
(approvedCount / totalCount) * 100 over those requests, which can differ
by one from exact round(100 * approvedCount / totalCount) when the double
rounding crosses a half-integer (e.g. 23 approved of 40 gives 57, not
58). -/
theorem coach_kpis_attendance (users : List User) (achs : List Achievement)
    (regs : List TournamentRegistration) (schedules : List Schedule)
    (reqs : List ScheduleRequest) (coachId : String)
    (now t30 t7 f7 : Nat) (coach : User) (k : CoachKpis)
    (hc : users.find? (fun u => u.id = coachId) = some coach)
    (hk : coachReports users achs regs schedules reqs coachId now t30 t7 f7 =
      Except.ok k) :
    (k.attendanceRatePct = none ↔
      requestsUnderCoach schedules reqs coach.id t30 = []) ∧
    k.attendanceRatePct =
      (if requestsUnderCoach schedules reqs coach.id t30 = [] then none
       else some (jsRatePct
         ((requestsUnderCoach schedules reqs coach.id t30).filter
           (fun r => r.status == "APPROVED")).length
         (requestsUnderCoach schedules reqs coach.id t30).length)) := by
  unfold coachReports at hk
  split at hk
  next hu => rw [hc] at hu; cases hu
  next coach2 hu =>
    rw [hc] at hu
    cases hu
    split at hk
    next => cases hk
    next =>
      injection hk with hk
      subst hk
      by_cases h0 : 0 < (requestsUnderCoach schedules reqs coach.id t30).length
      · have hne : requestsUnderCoach schedules reqs coach.id t30 ≠ [] :=
          List.length_pos.mp h0
        constructor
        · simp [if_pos h0, hne]
        · simp [if_pos h0, if_neg hne]
      · have hnil : requestsUnderCoach schedules reqs coach.id t30 = [] :=
          List.length_eq_zero.mp (Nat.eq_zero_of_not_pos h0)
        constructor
        · simp [if_neg h0, hnil]
        · simp [if_neg h0, if_pos hnil]

/-- Witness for the amended C9: with three requests in the window of which
two are approved, the handler reports 67 — here the double evaluation and
the exact round(200/3) agree — and the rate is non-null exactly because
the window is non-empty. -/
theorem coach_kpis_attendance_witness :
    ((some 67 : Option ℕ) = none ↔
      requestsUnderCoach [sched1] kpiReqs "c1" 10 = []) ∧
    (some 67 : Option ℕ) =
      (if requestsUnderCoach [sched1] kpiReqs "c1" 10 = [] then none
       else some (jsRatePct
         ((requestsUnderCoach [sched1] kpiReqs "c1" 10).filter
           (fun r => r.status == "APPROVED")).length
         (requestsUnderCoach [sched1] kpiReqs "c1" 10).length)) :=
  coach_kpis_attendance [coachCricket] [] [] [sched1] kpiReqs "c1" 100 10 85 200
    coachCricket
    { achievementsApproved := 0
      achievementsPending := 0
      regPending := 0
      regConfirmed := 0
      upcomingSessions7d := 0
      activePlayersThisWeek := 2
      attendanceRatePct := some 67 }
    (by decide) (by decide)
